import Mathlib

/-!
Verification development for the ReActor actor runtime (src/lib.rs).

The Rust source implements a single-threaded actor kernel:
`Config` owns a registry of actors (`Vec<Rc<Actor>>`) and a FIFO queue of
events (`VecDeque<Event>`); `Config::dispatch` pops events one at a time,
invokes the target's current `Behavior`, and atomically commits or discards
the resulting `Effect`.

Embedding choices:
* An `Rc<Actor>` reference is modelled by a stable numeric identity
  (`ActorId`).  A fresh `Rc` allocation (`Actor::new`) becomes taking the
  next value of a monotone allocation counter, which the scheduler threads
  through reactions; live actors therefore always carry distinct
  identities, exactly as distinct live `Rc` allocations have distinct
  addresses.  Pointer equality (`impl PartialEq for Actor`) becomes
  equality of identities.
* The per-actor interior-mutable behavior slot (`RefCell<Box<dyn Behavior>>`
  shared through `Rc`) is modelled by an association list `store` from
  identities to `Behavior` values, carried in `Config` next to the registry
  and updated in place by `Actor.update`.  In the Rust source an `Event`
  holds the `Rc<Actor>` itself, so resolving a target can never fail; in
  the embedding a target is resolved by looking its identity up in the
  store, and the (unreachable through the public interface) case of a
  missing entry consumes the event and changes nothing else.
* A `Behavior` is a reaction function from the incoming `Event` and the
  current allocation counter to the built `Effect` together with the
  counter left after the reaction's allocations, mirroring how a Rust
  reaction body builds an `Effect` through `create`/`send`/`update`/`throw`
  while `Effect::create` draws fresh addresses from the allocator.
-/

/-- Identity of an actor: stands for the address of its `Rc<Actor>` cell. -/
abbrev ActorId := Nat

/-- `type Error = &'static str;` -/
abbrev Error := String

/-- The `Message` enum: a closed recursive value type (src/lib.rs lines 63-86). -/
inductive Message where
  | Empty : Message
  | Nat (n : Nat) : Message
  | Int (i : Int) : Message
  | Str (s : String) : Message
  | Addr (a : ActorId) : Message
  | Maybe (m : Option Message) : Message
  | Pair (m1 m2 : Message) : Message
  | List (ms : List Message) : Message
  | OkFail (ok fail : ActorId) : Message
  | GetMsg (cust : ActorId) (name : String) : Message
  | SetMsg (cust : ActorId) (name : String) (value : Message) : Message

/-- An `Event` pairs a target actor reference with a message (lines 48-59). -/
structure Event where
  target : ActorId
  message : Message

/-- The four fields of `Effect` (lines 88-93), parametric in the behavior
type to tie the recursive knot below: staged actor creations (identity and
initial behavior, in creation order), staged outgoing events (in call
order), the optional staged behavior replacement, the optional failure. -/
structure EffectF (B : Type) where
  actors : List (ActorId × B)
  events : List Event
  state : Option B
  error : Option Error

/-- The `Behavior` trait (lines 16-18): one operation, reacting to an
event.  The extra `Nat` argument and result thread the fresh-identity
allocator through the reaction, standing for the `Rc` allocations that
`Effect::create` performs while the reaction runs. -/
inductive Behavior where
  | mk : (Event → Nat → EffectF Behavior × Nat) → Behavior

/-- The `Effect` transaction draft (lines 88-119). -/
abbrev Effect := EffectF Behavior

/-- Apply a behavior to an event (`Behavior::react`). -/
def Behavior.react : Behavior → Event → Nat → Effect × Nat
  | Behavior.mk f => f

/-- `Effect::new` (lines 95-102): the empty draft. -/
def Effect.new : Effect :=
  { actors := [], events := [], state := none, error := none }

/-- `Effect::create` (lines 104-108): allocate a fresh actor identity from
the allocation counter, stage the new actor on the draft's create list, and
return its reference immediately (together with the advanced counter). -/
def Effect.create (e : Effect) (behavior : Behavior) (ctr : Nat) :
    Effect × ActorId × Nat :=
  ({ e with actors := e.actors ++ [(ctr, behavior)] }, ctr, ctr + 1)

/-- `Effect::send` (lines 109-112): stage one event at the back of the
draft's outgoing list. -/
def Effect.send (e : Effect) (target : ActorId) (message : Message) : Effect :=
  { e with events := e.events ++ [⟨target, message⟩] }

/-- `Effect::update` (lines 113-115): stage a behavior replacement,
overwriting any previously staged one (`self.state = Some(behavior)`). -/
def Effect.update (e : Effect) (behavior : Behavior) : Effect :=
  { e with state := some behavior }

/-- `Effect::throw` (lines 116-118): mark the draft as failed. -/
def Effect.throw (e : Effect) (reason : Error) : Effect :=
  { e with error := some reason }

/-- `impl PartialEq for Actor` (lines 42-46): pointer comparison of the two
references, i.e. comparison of the identities. -/
def Actor.eq (a b : ActorId) : Bool := a == b

/-- `Actor::update` (lines 33-35): replace the behavior stored in the
target's slot; everything else (in particular every identity) is kept. -/
def Actor.update : List (ActorId × Behavior) → ActorId → Behavior →
    List (ActorId × Behavior)
  | [], _, _ => []
  | (a, b) :: rest, t, nb =>
      if a = t then (a, nb) :: rest else (a, b) :: Actor.update rest t nb

/-- Resolve an actor identity to its current behavior (dereferencing the
`Rc<Actor>` held by the event). -/
def lookupStore : List (ActorId × Behavior) → ActorId → Option Behavior
  | [], _ => none
  | (a, b) :: rest, t => if a = t then some b else lookupStore rest t

/-- The `Config` scheduler state (lines 121-124): registry of known actor
identities and FIFO event queue (front = head of the list), together with
the modelled heap: the behavior slot of every allocated actor and the
allocation counter. -/
structure Config where
  actors : List ActorId
  events : List Event
  store : List (ActorId × Behavior)
  next : Nat

/-- `Config::new` (lines 126-131). -/
def Config.new : Config :=
  { actors := [], events := [], store := [], next := 0 }

/-- `Config::dispatch` (lines 147-170): up to `limit` times, pop the front
event, react, and either commit the effect (no error: install the staged
behavior replacement if any, append the staged creates to the registry,
append the staged events to the back of the queue) or, on a flagged error,
discard everything staged and continue.  Returns the final scheduler state
and the number of events still queued. -/
def Config.dispatch : Config → Nat → Config × Nat
  | c, 0 => (c, c.events.length)
  | c, limit + 1 =>
    match c.events with
    | [] => (c, c.events.length)
    | event :: rest =>
      match lookupStore c.store event.target with
      | none => Config.dispatch { c with events := rest } limit
      | some b =>
        match (b.react event c.next).1.error with
        | some _ =>
            Config.dispatch
              { c with events := rest, next := (b.react event c.next).2 } limit
        | none =>
            Config.dispatch
              { actors := c.actors ++ ((b.react event c.next).1.actors.map Prod.fst),
                events := rest ++ (b.react event c.next).1.events,
                store := (match (b.react event c.next).1.state with
                          | some nb => Actor.update c.store event.target nb
                          | none => c.store) ++ (b.react event c.next).1.actors,
                next := (b.react event c.next).2 } limit

/-- `Config::boot` (lines 136-142): allocate a fresh root actor running
`behavior`, push it on the registry, enqueue one `Empty` event addressed to
it, and dispatch one bootstrap cycle. -/
def Config.boot (c : Config) (behavior : Behavior) : Config × Nat :=
  Config.dispatch
    { actors := c.actors ++ [c.next],
      events := c.events ++ [⟨c.next, Message.Empty⟩],
      store := c.store ++ [(c.next, behavior)],
      next := c.next + 1 } 1

/-- Ghost instrumentation of `Config::dispatch`: how many events the loop
pops during a run with the given fuel.  Mirrors the recursion of
`Config.dispatch` exactly, counting one per popped event. -/
def Config.poppedDuring : Config → Nat → Nat
  | _, 0 => 0
  | c, limit + 1 =>
    match c.events with
    | [] => 0
    | event :: rest =>
      match lookupStore c.store event.target with
      | none => Config.poppedDuring { c with events := rest } limit + 1
      | some b =>
        match (b.react event c.next).1.error with
        | some _ =>
            Config.poppedDuring
              { c with events := rest, next := (b.react event c.next).2 } limit + 1
        | none =>
            Config.poppedDuring
              { actors := c.actors ++ ((b.react event c.next).1.actors.map Prod.fst),
                events := rest ++ (b.react event c.next).1.events,
                store := (match (b.react event c.next).1.state with
                          | some nb => Actor.update c.store event.target nb
                          | none => c.store) ++ (b.react event c.next).1.actors,
                next := (b.react event c.next).2 } limit + 1

/-- Ghost instrumentation of `Config::dispatch`: how many staged events the
loop commits onto the queue during a run with the given fuel (the events
the queue comes to hold during the call, beyond those initially queued).
Mirrors the recursion of `Config.dispatch` exactly. -/
def Config.stagedDuring : Config → Nat → Nat
  | _, 0 => 0
  | c, limit + 1 =>
    match c.events with
    | [] => 0
    | event :: rest =>
      match lookupStore c.store event.target with
      | none => Config.stagedDuring { c with events := rest } limit
      | some b =>
        match (b.react event c.next).1.error with
        | some _ =>
            Config.stagedDuring
              { c with events := rest, next := (b.react event c.next).2 } limit
        | none =>
            (b.react event c.next).1.events.length +
            Config.stagedDuring
              { actors := c.actors ++ ((b.react event c.next).1.actors.map Prod.fst),
                events := rest ++ (b.react event c.next).1.events,
                store := (match (b.react event c.next).1.state with
                          | some nb => Actor.update c.store event.target nb
                          | none => c.store) ++ (b.react event c.next).1.actors,
                next := (b.react event c.next).2 } limit

/-- The `idiom::Sink` behavior (lines 179-184): discard every message. -/
def idiomSink : Behavior := Behavior.mk (fun _ ctr => (Effect.new, ctr))

/-- The `idiom::Forward` behavior (lines 189-198): pass every incoming
message on to the subject. -/
def idiomForward (subject : ActorId) : Behavior :=
  Behavior.mk (fun event ctr => (Effect.new.send subject event.message, ctr))

/-- The `Once` behavior from the in-crate tests (lines 257-267): forward
the message to the customer, then replace the own behavior by a sink. -/
def testOnce (cust : ActorId) : Behavior :=
  Behavior.mk (fun event ctr =>
    ((Effect.new.send cust event.message).update idiomSink, ctr))

/-- The `Maker` behavior from the in-crate tests (lines 297-310): on an
`Addr cust` message, create a sink actor and send its address to `cust`;
on anything else, throw. -/
def testMaker : Behavior :=
  Behavior.mk (fun event ctr =>
    match event.message with
    | Message.Addr cust =>
        match Effect.new.create idiomSink ctr with
        | (eff, actor, ctr2) => (eff.send cust (Message.Addr actor), ctr2)
    | _ => (Effect.new.throw "unknown message", ctr))

/-- A bootstrap behavior that stages exactly two sends (the scenario named
by the specification for `boot`). -/
def twoSendBoot : Behavior :=
  Behavior.mk (fun event ctr =>
    ((Effect.new.send event.target Message.Empty).send event.target
      (Message.Nat 1), ctr))

/-- A behavior that first stages one create and one send and only then
throws: exercises the fail-after-staging path. -/
def stageThenThrow : Behavior :=
  Behavior.mk (fun event ctr =>
    match Effect.new.create idiomSink ctr with
    | (eff, actor, ctr2) =>
        ((eff.send actor event.message).throw "late failure", ctr2))

/-- A sequence of `Effect::update` calls performed on one draft. -/
def Effect.applyUpdates (e : Effect) (bs : List Behavior) : Effect :=
  bs.foldl Effect.update e

/-- The count `Config::dispatch` returns is always the length of the event
queue it leaves behind (`self.events.len()` after the loop). -/
theorem Config.dispatch_snd_eq_length : ∀ (limit : Nat) (c : Config),
    (Config.dispatch c limit).2 = (Config.dispatch c limit).1.events.length := by
  intro limit
  induction limit with
  | zero => intro c; simp [Config.dispatch]
  | succ n ih =>
    intro c
    obtain ⟨actors, events, store, nx⟩ := c
    cases events with
    | nil => simp [Config.dispatch]
    | cons event rest =>
      simp only [Config.dispatch]
      split
      · exact ih _
      · split
        · exact ih _
        · exact ih _

/-- If the fuel covers every event initially queued plus every event the
run commits onto the queue, the loop empties the queue and returns 0. -/
theorem Config.dispatch_drain_of_le : ∀ (limit : Nat) (c : Config),
    c.events.length + Config.stagedDuring c limit ≤ limit →
    (Config.dispatch c limit).2 = 0 := by
  intro limit
  induction limit with
  | zero =>
    intro c h
    simp only [Config.stagedDuring, Nat.add_zero, Nat.le_zero] at h
    simp [Config.dispatch, h]
  | succ n ih =>
    intro c h
    obtain ⟨actors, events, store, nx⟩ := c
    cases events with
    | nil => simp [Config.dispatch]
    | cons event rest =>
      cases hb : lookupStore store event.target with
      | none =>
        simp only [Config.stagedDuring, hb, List.length_cons] at h
        simp only [Config.dispatch, hb]
        apply ih
        dsimp only
        omega
      | some b =>
        cases herr : (b.react event nx).1.error with
        | some r =>
          simp only [Config.stagedDuring, hb, herr, List.length_cons] at h
          simp only [Config.dispatch, hb, herr]
          apply ih
          dsimp only
          omega
        | none =>
          simp only [Config.stagedDuring, hb, herr, List.length_cons] at h
          simp only [Config.dispatch, hb, herr]
          apply ih
          dsimp only
          simp only [List.length_append]
          omega

/-- The loop never pops more events than its fuel. -/
theorem Config.poppedDuring_le : ∀ (limit : Nat) (c : Config),
    Config.poppedDuring c limit ≤ limit := by
  intro limit
  induction limit with
  | zero => intro c; simp [Config.poppedDuring]
  | succ n ih =>
    intro c
    obtain ⟨actors, events, store, nx⟩ := c
    cases events with
    | nil => simp [Config.poppedDuring]
    | cons event rest =>
      simp only [Config.poppedDuring]
      split
      · exact Nat.succ_le_succ (ih _)
      · split
        · exact Nat.succ_le_succ (ih _)
        · exact Nat.succ_le_succ (ih _)

/-- Event conservation: the events left queued plus the events popped
equal the events initially queued plus the events committed during the
run. -/
theorem Config.dispatch_conservation : ∀ (limit : Nat) (c : Config),
    (Config.dispatch c limit).1.events.length + Config.poppedDuring c limit =
      c.events.length + Config.stagedDuring c limit := by
  intro limit
  induction limit with
  | zero => intro c; simp [Config.dispatch, Config.poppedDuring, Config.stagedDuring]
  | succ n ih =>
    intro c
    obtain ⟨actors, events, store, nx⟩ := c
    cases events with
    | nil => simp [Config.dispatch, Config.poppedDuring, Config.stagedDuring]
    | cons event rest =>
      cases hb : lookupStore store event.target with
      | none =>
        simp only [Config.dispatch, Config.poppedDuring, Config.stagedDuring, hb]
        have := ih ⟨actors, rest, store, nx⟩
        dsimp only at *
        simp only [List.length_cons] at *
        omega
      | some b =>
        cases herr : (b.react event nx).1.error with
        | some r =>
          simp only [Config.dispatch, Config.poppedDuring, Config.stagedDuring, hb, herr]
          have := ih ⟨actors, rest, store, (b.react event nx).2⟩
          dsimp only at *
          simp only [List.length_cons] at *
          omega
        | none =>
          simp only [Config.dispatch, Config.poppedDuring, Config.stagedDuring, hb, herr]
          have := ih ⟨actors ++ ((b.react event nx).1.actors.map Prod.fst),
            rest ++ (b.react event nx).1.events,
            (match (b.react event nx).1.state with
             | some nb => Actor.update store event.target nb
             | none => store) ++ (b.react event nx).1.actors,
            (b.react event nx).2⟩
          dsimp only at *
          simp only [List.length_cons, List.length_append] at *
          omega

/-- C1: in every `Config::dispatch` iteration whose popped event's reaction
returns an `Effect` with the failure flag set, nothing staged is applied:
the registry, the store of behaviors (in particular the target's behavior)
and the queue beyond removal of the consumed event are unchanged, and the
loop continues with the next queued event instead of halting. -/
theorem dispatch_failure_discards_staged (actors : List ActorId)
    (store : List (ActorId × Behavior)) (nx : Nat) (event : Event)
    (rest : List Event) (b : Behavior) (reason : Error) (limit : Nat)
    (hb : lookupStore store event.target = some b)
    (herr : (b.react event nx).1.error = some reason) :
    Config.dispatch ⟨actors, event :: rest, store, nx⟩ (limit + 1) =
      Config.dispatch ⟨actors, rest, store, (b.react event nx).2⟩ limit := by
  simp only [Config.dispatch, hb, herr]

theorem dispatch_failure_discards_staged_witness :
    lookupStore [(0, testMaker)] (Event.mk 0 Message.Empty).target = some testMaker
    ∧ (testMaker.react (Event.mk 0 Message.Empty) 1).1.error = some "unknown message"
    ∧ Config.dispatch ⟨[0], [Event.mk 0 Message.Empty], [(0, testMaker)], 1⟩ 1 =
        Config.dispatch ⟨[0], [], [(0, testMaker)], 1⟩ 0 :=
  ⟨rfl, rfl,
    dispatch_failure_discards_staged [0] [(0, testMaker)] 1
      (Event.mk 0 Message.Empty) [] testMaker "unknown message" 0 rfl rfl⟩

/-- C2: in every `Config::dispatch` iteration whose popped event's reaction
flags no failure, the commit appends the staged created actors to the
registry (and their behavior slots to the store), appends the staged events
to the back of the queue preserving their relative order, installs the
staged behavior replacement (if any) on the target, and the loop continues;
moreover `dispatch` always returns the number of events still queued after
the loop. -/
theorem dispatch_success_commits (actors : List ActorId)
    (store : List (ActorId × Behavior)) (nx : Nat) (event : Event)
    (rest : List Event) (b : Behavior) (limit : Nat)
    (hb : lookupStore store event.target = some b)
    (hok : (b.react event nx).1.error = none) :
    (Config.dispatch ⟨actors, event :: rest, store, nx⟩ (limit + 1) =
      Config.dispatch
        ⟨actors ++ ((b.react event nx).1.actors.map Prod.fst),
         rest ++ (b.react event nx).1.events,
         (match (b.react event nx).1.state with
          | some nb => Actor.update store event.target nb
          | none => store) ++ (b.react event nx).1.actors,
         (b.react event nx).2⟩ limit)
    ∧ ∀ (c : Config) (lim : Nat),
        (Config.dispatch c lim).2 = (Config.dispatch c lim).1.events.length := by
  constructor
  · simp only [Config.dispatch, hb, hok]
  · intro c lim
    exact Config.dispatch_snd_eq_length lim c

theorem dispatch_success_commits_witness :
    lookupStore [(0, testMaker)] (Event.mk 0 (Message.Addr 0)).target = some testMaker
    ∧ (testMaker.react (Event.mk 0 (Message.Addr 0)) 1).1.error = none
    ∧ Config.dispatch ⟨[0], [Event.mk 0 (Message.Addr 0)], [(0, testMaker)], 1⟩ 1 =
        Config.dispatch
          ⟨[0, 1], [Event.mk 0 (Message.Addr 1)],
           [(0, testMaker), (1, idiomSink)], 2⟩ 0 :=
  ⟨rfl, rfl,
    (dispatch_success_commits [0] [(0, testMaker)] 1
      (Event.mk 0 (Message.Addr 0)) [] testMaker 0 rfl rfl).1⟩

/-- C3: `Config::boot` allocates exactly one fresh root actor running the
given behavior, appends it to the registry, enqueues exactly one `Empty`
event addressed to it, performs one dispatch cycle (`dispatch 1`), and
returns its result; in particular booting a fresh scheduler with a behavior
that stages two sends returns queue length 2. -/
theorem boot_one_actor_one_event_one_cycle :
    (∀ (c : Config) (behavior : Behavior),
       Config.boot c behavior =
         Config.dispatch
           { actors := c.actors ++ [c.next],
             events := c.events ++ [Event.mk c.next Message.Empty],
             store := c.store ++ [(c.next, behavior)],
             next := c.next + 1 } 1)
    ∧ (Config.boot Config.new twoSendBoot).2 = 2 :=
  ⟨fun _ _ => rfl, rfl⟩

/-- C4: `dispatch 0` is a no-op returning the current queue length with the
scheduler state untouched; and whenever the fuel covers every event the
queue comes to hold during the call (the events initially queued plus every
event committed onto the queue during the run), the call drains the queue
and returns 0. -/
theorem dispatch_zero_noop_and_full_drain :
    (∀ c : Config, Config.dispatch c 0 = (c, c.events.length))
    ∧ (∀ (c : Config) (limit : Nat),
         c.events.length + Config.stagedDuring c limit ≤ limit →
         (Config.dispatch c limit).2 = 0) :=
  ⟨fun _ => rfl, fun c limit h => Config.dispatch_drain_of_le limit c h⟩

theorem dispatch_zero_noop_and_full_drain_witness :
    (⟨[0], [Event.mk 0 Message.Empty], [(0, idiomSink)], 1⟩ : Config).events.length
      + Config.stagedDuring ⟨[0], [Event.mk 0 Message.Empty], [(0, idiomSink)], 1⟩ 1 ≤ 1
    ∧ (Config.dispatch ⟨[0], [Event.mk 0 Message.Empty], [(0, idiomSink)], 1⟩ 1).2 = 0 :=
  ⟨by decide,
   dispatch_zero_noop_and_full_drain.2
     ⟨[0], [Event.mk 0 Message.Empty], [(0, idiomSink)], 1⟩ 1 (by decide)⟩

/-- C5: events are served strictly first-in-first-out: `Effect::send`
appends the staged event at the back of the draft's outgoing list (leaving
every other field alone), successive sends stage in call order, and a
successful commit pops the front event of the queue and appends the staged
events at the back, reordering nothing. -/
theorem events_fifo_order :
    (∀ (e : Effect) (target : ActorId) (message : Message),
       (Effect.send e target message).events = e.events ++ [Event.mk target message]
       ∧ (Effect.send e target message).actors = e.actors
       ∧ (Effect.send e target message).state = e.state
       ∧ (Effect.send e target message).error = e.error)
    ∧ (∀ (e : Effect) (t1 t2 : ActorId) (m1 m2 : Message),
       (Effect.send (Effect.send e t1 m1) t2 m2).events =
         e.events ++ [Event.mk t1 m1, Event.mk t2 m2])
    ∧ (∀ (actors : List ActorId) (store : List (ActorId × Behavior)) (nx : Nat)
         (event : Event) (rest : List Event) (b : Behavior) (limit : Nat),
       lookupStore store event.target = some b →
       (b.react event nx).1.error = none →
       Config.dispatch ⟨actors, event :: rest, store, nx⟩ (limit + 1) =
         Config.dispatch
           ⟨actors ++ ((b.react event nx).1.actors.map Prod.fst),
            rest ++ (b.react event nx).1.events,
            (match (b.react event nx).1.state with
             | some nb => Actor.update store event.target nb
             | none => store) ++ (b.react event nx).1.actors,
            (b.react event nx).2⟩ limit) := by
  refine ⟨fun e target message => ⟨rfl, rfl, rfl, rfl⟩,
          fun e t1 t2 m1 m2 => by simp [Effect.send],
          fun actors store nx event rest b limit hb hok => ?_⟩
  simp only [Config.dispatch, hb, hok]

theorem events_fifo_order_witness :
    lookupStore [(0, idiomForward 1), (1, idiomSink)]
        (Event.mk 0 (Message.Str "hi")).target = some (idiomForward 1)
    ∧ ((idiomForward 1).react (Event.mk 0 (Message.Str "hi")) 2).1.error = none
    ∧ Config.dispatch
        ⟨[0, 1], [Event.mk 0 (Message.Str "hi"), Event.mk 1 Message.Empty],
         [(0, idiomForward 1), (1, idiomSink)], 2⟩ 1 =
        Config.dispatch
          ⟨[0, 1], [Event.mk 1 Message.Empty, Event.mk 1 (Message.Str "hi")],
           [(0, idiomForward 1), (1, idiomSink)], 2⟩ 0 :=
  ⟨rfl, rfl,
    events_fifo_order.2.2 [0, 1] [(0, idiomForward 1), (1, idiomSink)] 2
      (Event.mk 0 (Message.Str "hi")) [Event.mk 1 Message.Empty]
      (idiomForward 1) 0 rfl rfl⟩

/-- C6: actor equality is identity (address) equality, never structural:
every actor equals itself; two actors created one after the other — even
with identical behavior configuration — compare unequal; and a behavior
replacement (`Actor::update`) changes no identity, only the stored behavior
value. -/
theorem actor_equality_by_identity :
    (∀ a : ActorId, Actor.eq a a = true)
    ∧ (∀ (e : Effect) (behavior : Behavior) (ctr : Nat),
         Actor.eq (Effect.create e behavior ctr).2.1
           (Effect.create (Effect.create e behavior ctr).1 behavior
             (Effect.create e behavior ctr).2.2).2.1 = false)
    ∧ (∀ (store : List (ActorId × Behavior)) (t : ActorId) (nb : Behavior),
         List.map Prod.fst (Actor.update store t nb) = List.map Prod.fst store) := by
  refine ⟨fun a => by simp [Actor.eq], fun e behavior ctr => ?_, fun store t nb => ?_⟩
  · show Actor.eq ctr (ctr + 1) = false
    simp [Actor.eq]
  · induction store with
    | nil => rfl
    | cons p rest ih =>
      obtain ⟨a, b⟩ := p
      by_cases h : a = t
      · simp [Actor.update, h]
      · simp [Actor.update, h, ih]

/-- C7: within a single reaction at most one behavior replacement takes
effect, with a last-call-wins policy: `Effect::update` overwrites the
staged slot (touching nothing else), any sequence of update calls leaves
exactly the last staged behavior, and at a successful commit that single
staged behavior is the one installed on the dispatching actor. -/
theorem update_replacement_last_call_wins :
    (∀ (e : Effect) (behavior : Behavior),
       (Effect.update e behavior).state = some behavior
       ∧ (Effect.update e behavior).actors = e.actors
       ∧ (Effect.update e behavior).events = e.events
       ∧ (Effect.update e behavior).error = e.error)
    ∧ (∀ (e : Effect) (bs : List Behavior) (behavior : Behavior),
       (Effect.applyUpdates e (bs ++ [behavior])).state = some behavior)
    ∧ (∀ (actors : List ActorId) (store : List (ActorId × Behavior)) (nx : Nat)
         (event : Event) (rest : List Event) (b nb : Behavior) (limit : Nat),
       lookupStore store event.target = some b →
       (b.react event nx).1.error = none →
       (b.react event nx).1.state = some nb →
       Config.dispatch ⟨actors, event :: rest, store, nx⟩ (limit + 1) =
         Config.dispatch
           ⟨actors ++ ((b.react event nx).1.actors.map Prod.fst),
            rest ++ (b.react event nx).1.events,
            Actor.update store event.target nb ++ (b.react event nx).1.actors,
            (b.react event nx).2⟩ limit) := by
  refine ⟨fun e behavior => ⟨rfl, rfl, rfl, rfl⟩,
          fun e bs behavior => ?_,
          fun actors store nx event rest b nb limit hb hok hst => ?_⟩
  · simp [Effect.applyUpdates, List.foldl_append, Effect.update]
  · simp only [Config.dispatch, hb, hok, hst]

theorem update_replacement_last_call_wins_witness :
    lookupStore [(0, idiomSink), (1, testOnce 0)]
        (Event.mk 1 (Message.Nat 7)).target = some (testOnce 0)
    ∧ ((testOnce 0).react (Event.mk 1 (Message.Nat 7)) 2).1.error = none
    ∧ ((testOnce 0).react (Event.mk 1 (Message.Nat 7)) 2).1.state = some idiomSink
    ∧ Config.dispatch
        ⟨[0, 1], [Event.mk 1 (Message.Nat 7)], [(0, idiomSink), (1, testOnce 0)], 2⟩ 1 =
        Config.dispatch
          ⟨[0, 1], [Event.mk 0 (Message.Nat 7)], [(0, idiomSink), (1, idiomSink)], 2⟩ 0 :=
  ⟨rfl, rfl, rfl,
    update_replacement_last_call_wins.2.2 [0, 1] [(0, idiomSink), (1, testOnce 0)] 2
      (Event.mk 1 (Message.Nat 7)) [] (testOnce 0) idiomSink 0 rfl rfl rfl⟩

/-- C8: `Effect::throw` marks the whole draft as failed with the given
reason while leaving the already-staged creates, sends and replacement in
the draft — and a reaction whose effect carries a failure commits none of
them: the scheduler state keeps its registry and store and only loses the
consumed event. -/
theorem throw_marks_failure_staged_never_commit :
    (∀ (e : Effect) (reason : Error),
       (Effect.throw e reason).error = some reason
       ∧ (Effect.throw e reason).actors = e.actors
       ∧ (Effect.throw e reason).events = e.events
       ∧ (Effect.throw e reason).state = e.state)
    ∧ (∀ (actors : List ActorId) (store : List (ActorId × Behavior)) (nx : Nat)
         (event : Event) (rest : List Event) (b : Behavior) (reason : Error)
         (limit : Nat),
       lookupStore store event.target = some b →
       (b.react event nx).1.error = some reason →
       Config.dispatch ⟨actors, event :: rest, store, nx⟩ (limit + 1) =
         Config.dispatch ⟨actors, rest, store, (b.react event nx).2⟩ limit) := by
  refine ⟨fun e reason => ⟨rfl, rfl, rfl, rfl⟩,
          fun actors store nx event rest b reason limit hb herr => ?_⟩
  simp only [Config.dispatch, hb, herr]

theorem throw_marks_failure_staged_never_commit_witness :
    (stageThenThrow.react (Event.mk 0 Message.Empty) 1).1.actors = [(1, idiomSink)]
    ∧ (stageThenThrow.react (Event.mk 0 Message.Empty) 1).1.events = [Event.mk 1 Message.Empty]
    ∧ lookupStore [(0, stageThenThrow)] (Event.mk 0 Message.Empty).target = some stageThenThrow
    ∧ (stageThenThrow.react (Event.mk 0 Message.Empty) 1).1.error = some "late failure"
    ∧ Config.dispatch ⟨[0], [Event.mk 0 Message.Empty], [(0, stageThenThrow)], 1⟩ 1 =
        Config.dispatch ⟨[0], [], [(0, stageThenThrow)], 2⟩ 0 :=
  ⟨rfl, rfl, rfl, rfl,
    throw_marks_failure_staged_never_commit.2 [0] [(0, stageThenThrow)] 1
      (Event.mk 0 Message.Empty) [] stageThenThrow "late failure" 0 rfl rfl⟩

/-- C9: `Effect::create` hands out the next fresh identity (distinct from
every previously existing actor identity, the allocation counter dominating
them all), stages the new actor on the draft's create list, and returns its
reference immediately; the created actor reaches the scheduler's registry
and store exactly at a successful commit — a failed reaction adds
nothing. -/
theorem create_fresh_identity_visible_at_commit :
    (∀ (e : Effect) (behavior : Behavior) (ctr : Nat),
       (Effect.create e behavior ctr).2.1 = ctr
       ∧ (Effect.create e behavior ctr).2.2 = ctr + 1
       ∧ (Effect.create e behavior ctr).1.actors = e.actors ++ [(ctr, behavior)]
       ∧ (Effect.create e behavior ctr).1.events = e.events
       ∧ (Effect.create e behavior ctr).1.state = e.state
       ∧ (Effect.create e behavior ctr).1.error = e.error)
    ∧ (∀ (existing : List ActorId) (ctr : Nat),
         (∀ a ∈ existing, a < ctr) →
         ∀ (e : Effect) (behavior : Behavior),
           (Effect.create e behavior ctr).2.1 ∉ existing)
    ∧ (∀ (actors : List ActorId) (store : List (ActorId × Behavior)) (nx : Nat)
         (event : Event) (rest : List Event) (b : Behavior) (limit : Nat),
       lookupStore store event.target = some b →
       (b.react event nx).1.error = none →
       Config.dispatch ⟨actors, event :: rest, store, nx⟩ (limit + 1) =
         Config.dispatch
           ⟨actors ++ ((b.react event nx).1.actors.map Prod.fst),
            rest ++ (b.react event nx).1.events,
            (match (b.react event nx).1.state with
             | some nb => Actor.update store event.target nb
             | none => store) ++ (b.react event nx).1.actors,
            (b.react event nx).2⟩ limit)
    ∧ (∀ (actors : List ActorId) (store : List (ActorId × Behavior)) (nx : Nat)
         (event : Event) (rest : List Event) (b : Behavior) (reason : Error)
         (limit : Nat),
       lookupStore store event.target = some b →
       (b.react event nx).1.error = some reason →
       Config.dispatch ⟨actors, event :: rest, store, nx⟩ (limit + 1) =
         Config.dispatch ⟨actors, rest, store, (b.react event nx).2⟩ limit) := by
  refine ⟨fun e behavior ctr => ⟨rfl, rfl, rfl, rfl, rfl, rfl⟩,
          fun existing ctr h e behavior hmem => ?_,
          fun actors store nx event rest b limit hb hok => ?_,
          fun actors store nx event rest b reason limit hb herr => ?_⟩
  · exact absurd (h ctr hmem) (Nat.lt_irrefl ctr)
  · simp only [Config.dispatch, hb, hok]
  · simp only [Config.dispatch, hb, herr]

theorem create_fresh_identity_visible_at_commit_witness :
    (∀ a ∈ ([0, 1, 2] : List ActorId), a < 3)
    ∧ (Effect.create Effect.new idiomSink 3).2.1 ∉ ([0, 1, 2] : List ActorId)
    ∧ lookupStore [(0, testMaker)] (Event.mk 0 (Message.Addr 0)).target = some testMaker
    ∧ (testMaker.react (Event.mk 0 (Message.Addr 0)) 1).1.error = none
    ∧ Config.dispatch ⟨[0], [Event.mk 0 (Message.Addr 0)], [(0, testMaker)], 1⟩ 1 =
        Config.dispatch
          ⟨[0, 1], [Event.mk 0 (Message.Addr 1)],
           [(0, testMaker), (1, idiomSink)], 2⟩ 0
    ∧ (testMaker.react (Event.mk 0 (Message.Str "x")) 1).1.error = some "unknown message"
    ∧ Config.dispatch ⟨[0], [Event.mk 0 (Message.Str "x")], [(0, testMaker)], 1⟩ 1 =
        Config.dispatch ⟨[0], [], [(0, testMaker)], 1⟩ 0 :=
  ⟨by decide,
   create_fresh_identity_visible_at_commit.2.1 [0, 1, 2] 3 (by decide)
     Effect.new idiomSink,
   rfl, rfl,
   create_fresh_identity_visible_at_commit.2.2.1 [0] [(0, testMaker)] 1
     (Event.mk 0 (Message.Addr 0)) [] testMaker 0 rfl rfl,
   rfl,
   create_fresh_identity_visible_at_commit.2.2.2 [0] [(0, testMaker)] 1
     (Event.mk 0 (Message.Str "x")) [] testMaker "unknown message" 0 rfl rfl⟩

/-- C10: `Config::dispatch` performs at most `limit` pop-and-react
iterations — the pops never exceed the fuel, and they exactly account for
the queue evolution — and each popped event consumes exactly one unit of
fuel whether its reaction fails or succeeds. -/
theorem dispatch_bounded_iterations_one_unit_each :
    (∀ (limit : Nat) (c : Config), Config.poppedDuring c limit ≤ limit)
    ∧ (∀ (limit : Nat) (c : Config),
        (Config.dispatch c limit).1.events.length + Config.poppedDuring c limit =
          c.events.length + Config.stagedDuring c limit)
    ∧ (∀ (actors : List ActorId) (store : List (ActorId × Behavior)) (nx : Nat)
         (event : Event) (rest : List Event) (b : Behavior) (reason : Error)
         (limit : Nat),
       lookupStore store event.target = some b →
       (b.react event nx).1.error = some reason →
       Config.poppedDuring ⟨actors, event :: rest, store, nx⟩ (limit + 1) =
         Config.poppedDuring ⟨actors, rest, store, (b.react event nx).2⟩ limit + 1)
    ∧ (∀ (actors : List ActorId) (store : List (ActorId × Behavior)) (nx : Nat)
         (event : Event) (rest : List Event) (b : Behavior) (limit : Nat),
       lookupStore store event.target = some b →
       (b.react event nx).1.error = none →
       Config.poppedDuring ⟨actors, event :: rest, store, nx⟩ (limit + 1) =
         Config.poppedDuring
           ⟨actors ++ ((b.react event nx).1.actors.map Prod.fst),
            rest ++ (b.react event nx).1.events,
            (match (b.react event nx).1.state with
             | some nb => Actor.update store event.target nb
             | none => store) ++ (b.react event nx).1.actors,
            (b.react event nx).2⟩ limit + 1) := by
  refine ⟨Config.poppedDuring_le, Config.dispatch_conservation,
          fun actors store nx event rest b reason limit hb herr => ?_,
          fun actors store nx event rest b limit hb hok => ?_⟩
  · simp only [Config.poppedDuring, hb, herr]
  · simp only [Config.poppedDuring, hb, hok]

theorem dispatch_bounded_iterations_one_unit_each_witness :
    lookupStore [(0, testMaker)] (Event.mk 0 Message.Empty).target = some testMaker
    ∧ (testMaker.react (Event.mk 0 Message.Empty) 1).1.error = some "unknown message"
    ∧ Config.poppedDuring ⟨[0], [Event.mk 0 Message.Empty], [(0, testMaker)], 1⟩ 1 =
        Config.poppedDuring ⟨[0], [], [(0, testMaker)], 1⟩ 0 + 1
    ∧ (testMaker.react (Event.mk 0 (Message.Addr 0)) 1).1.error = none
    ∧ Config.poppedDuring ⟨[0], [Event.mk 0 (Message.Addr 0)], [(0, testMaker)], 1⟩ 1 =
        Config.poppedDuring
          ⟨[0, 1], [Event.mk 0 (Message.Addr 1)],
           [(0, testMaker), (1, idiomSink)], 2⟩ 0 + 1 :=
  ⟨rfl, rfl,
    dispatch_bounded_iterations_one_unit_each.2.2.1 [0] [(0, testMaker)] 1
      (Event.mk 0 Message.Empty) [] testMaker "unknown message" 0 rfl rfl,
    rfl,
    dispatch_bounded_iterations_one_unit_each.2.2.2 [0] [(0, testMaker)] 1
      (Event.mk 0 (Message.Addr 0)) [] testMaker 0 rfl rfl⟩
